import Mathlib

/-!
# Verification of the cover-art provider core
  (mb_enhanced_cover_art_uploads/providers/base.ts)

Shallow embedding of the provider contract: URL cleaning, identifier
extraction, redirect safety, the redirect guard in `fetchPage`, the
track-image merger, and the generic meta-tag provider.  External
collaborators (the JS regex engine, the HTTP client, the DOM parser)
are modelled as explicit data/function parameters; repository helpers
that live outside the covered source (`filterNonNull`, `groupBy`, the
domain-matcher registry) are modelled from the specification and marked
as such in their doc comments.
-/

set_option autoImplicit false

namespace MBProviders

/-- A parsed URL, as the pieces of the JS `URL` object that the source
reads: `host`, `pathname`, and (through `href`) scheme, query and
fragment. -/
structure URL where
  scheme : String
  host : String
  pathname : String
  search : String
  hash : String
deriving DecidableEq, Repr

/-- The serialized form `url.href` of a JS `URL`. -/
def URL.href (u : URL) : String :=
  u.scheme ++ "://" ++ u.host ++ u.pathname ++ u.search ++ u.hash

/-- A JS `RegExp`, modelled by its observable behaviour on a string:
`none` when the regex does not match, `some groups` when it matches,
where `groups` is the match array (index 0 the full match, index `i`
the `i`-th capturing group, `none` for a group that did not
participate). `RegExp.test` and `String.match` are derived below. -/
def RegExp : Type := String → Option (List (Option String))

/-- JS `regex.test(s)`: true iff the regex matches. -/
def RegExp.test (r : RegExp) (s : String) : Bool :=
  (r s).isSome

/-- JS `s.match(regex)?.[1]`: the first capturing group of the match,
absent when the regex does not match, when the match has no group 1, or
when group 1 did not participate in the match. -/
def RegExp.matchGroup1 (r : RegExp) (s : String) : Option String :=
  ((r s).bind fun groups => groups.get? 1).join

/-- `CoverArtProvider`: the data the covered operations read.
`urlRegex` is `RegExp | RegExp[]` in the source, hence a sum type. -/
structure Provider where
  name : String
  favicon : String
  supportedDomains : List String
  urlRegex : Sum RegExp (List RegExp)

/-- `CoverArtProvider.cleanUrl`: `url.host + url.pathname`. -/
def cleanUrl (url : URL) : String :=
  url.host ++ url.pathname

/-- `CoverArtProvider.supportsUrl`: if `urlRegex` is an array, some
regex tests true on the cleaned URL; otherwise the single regex tests
true on it. -/
def supportsUrl (p : Provider) (url : URL) : Bool :=
  match p.urlRegex with
  | .inr regexes => regexes.any fun regex => regex.test (cleanUrl url)
  | .inl regex => regex.test (cleanUrl url)

/-- `CoverArtProvider.extractId`: for a single regex, group 1 of its
match on the cleaned URL; for an array, map each regex to its group-1
match and take the first defined one. -/
def extractId (p : Provider) (url : URL) : Option String :=
  match p.urlRegex with
  | .inl regex => regex.matchGroup1 (cleanUrl url)
  | .inr regexes =>
      ((regexes.map fun regex => regex.matchGroup1 (cleanUrl url)).find?
        fun id => id.isSome).join

/-- `CoverArtProvider.isSafeRedirect`:
`const id = this.extractId(originalUrl); return !!id && id === this.extractId(redirectedUrl);`.
JS truthiness on `string | undefined`: `!!id` is false when `id` is
`undefined` or the empty string. -/
def isSafeRedirect (p : Provider) (originalUrl redirectedUrl : URL) : Bool :=
  match extractId p originalUrl with
  | none => false
  | some id => !(id == "") && (extractId p redirectedUrl == some id)

/-- The response the HTTP collaborator (`gmxhr`) delivers: the body
text and the final URL after any redirects.  The source receives
`finalUrl` as a string and re-parses it with `new URL(...)`; we model
the final URL structurally and use `URL.href` where the source uses the
string. -/
structure XHRResponse where
  finalUrl : URL
  responseText : String

/-- The error message built in `fetchPage` when a redirect is unsafe. -/
def redirectErrorMessage (p : Provider) (finalUrl : URL) : String :=
  "Refusing to extract images from " ++ p.name ++
    " provider because the original URL redirected to " ++ finalUrl.href ++
    ", which may be a different release. If this redirected URL is correct, please retry with " ++
    finalUrl.href ++ " directly."

/-- `CoverArtProvider.fetchPage`, given the collaborator's response:
if the final URL differs from `url.href` and the redirect is not safe,
throw; otherwise return the response body. -/
def fetchPage (p : Provider) (url : URL) (resp : XHRResponse) : Except String String :=
  if resp.finalUrl.href != url.href && !(isSafeRedirect p url resp.finalUrl) then
    .error (redirectErrorMessage p resp.finalUrl)
  else
    .ok resp.responseText

/-- The `ArtworkTypeIDs` enumeration of the source. -/
inductive ArtworkTypeIDs where
  | Back | Booklet | Front | Liner | Medium | Obi | Other | Poster
  | Raw | Spine | Sticker | Track | Tray | Watermark
deriving DecidableEq, Repr

/-- The stable integer tags the source assigns to `ArtworkTypeIDs`. -/
def ArtworkTypeIDs.toNat : ArtworkTypeIDs → Nat
  | .Back => 2 | .Booklet => 3 | .Front => 1 | .Liner => 12
  | .Medium => 4 | .Obi => 5 | .Other => 8 | .Poster => 11
  | .Raw => 14 | .Spine => 6 | .Sticker => 10 | .Track => 7
  | .Tray => 9 | .Watermark => 13

/-- The `CoverArt` record of the source.  Its `url` field is a JS
`URL` built with `new URL(...)` from a URL string; we identify the
candidate by that string. -/
structure CoverArt where
  url : String
  types : Option (List ArtworkTypeIDs) := none
  comment : Option String := none
  skipMaximisation : Option Bool := none
deriving DecidableEq, Repr

/-- The `ParsedTrackImage` record of the source. -/
structure ParsedTrackImage where
  url : String
  trackNumber : Option String := none
deriving DecidableEq, Repr

/-- Modelled from the spec: `filterNonNull` of `lib/util/array` (not in
the covered source) drops absent entries from a list. -/
def filterNonNull {α : Type} (l : List (Option α)) : List α :=
  l.filterMap id

/-- First-occurrence deduplication: the distinct keys of a list in the
order they are first encountered. -/
def dedupFirst {κ : Type} [BEq κ] : List κ → List κ
  | [] => []
  | k :: rest => k :: (dedupFirst rest).filter fun x => !(x == k)

/-- Modelled from the spec: `groupBy` of `lib/util/array` (not in the
covered source) groups a list into an insertion-ordered map from keys
to the values of the elements with that key, in encounter order. -/
def groupBy {β κ ν : Type} [BEq κ] (l : List β) (key : β → κ) (val : β → ν) :
    List (κ × List ν) :=
  (dedupFirst (l.map key)).map fun k =>
    (k, (l.filter fun b => key b == k).map val)

/-- `CoverArtProvider.#createTrackImageComment`: absent when no track
number is defined, otherwise "Track"/"Tracks" followed by the defined
track numbers joined with ", ". -/
def createTrackImageComment (trackNumbers : List (Option String)) : Option String :=
  let definedTrackNumbers := filterNonNull trackNumbers
  if definedTrackNumbers.isEmpty then none
  else
    let pre := if definedTrackNumbers.length == 1 then "Track" else "Tracks"
    some (pre ++ " " ++ String.intercalate ", " definedTrackNumbers)

/-- The first filtering stage of `mergeTrackImages`: drop absent
entries, then drop entries whose URL equals the main image's URL. -/
def remainingTrackImages (trackImages : List (Option ParsedTrackImage)) (mainUrl : String) :
    List ParsedTrackImage :=
  (filterNonNull trackImages).filter fun img => img.url != mainUrl

/-- `CoverArtProvider.mergeTrackImages`: group the remaining track
images by URL and emit one track-typed candidate per distinct URL,
commented with the applicable track numbers. -/
def mergeTrackImages (trackImages : List (Option ParsedTrackImage)) (mainUrl : String) :
    List CoverArt :=
  let imgUrlToTrackNumber :=
    groupBy (remainingTrackImages trackImages mainUrl)
      (fun el => el.url) (fun el => el.trackNumber)
  imgUrlToTrackNumber.map fun kv =>
    { url := kv.1
      types := some [ArtworkTypeIDs.Track]
      comment := createTrackImageComment kv.2 }

/-- A `<meta>` element of a document head, as read by the generic
provider: its `property` and `content` attributes. -/
structure MetaElement where
  property : String
  content : String
deriving DecidableEq, Repr

/-- A parsed document, as the generic provider queries it: the meta
elements of its head, in document order. -/
structure Document where
  headMetas : List MetaElement
deriving DecidableEq, Repr

/-- Modelled from the spec: the DOM collaborator's query-selector
primitive returns the first matching element or fails if none exists
(`qs` of `lib/util/dom`, not in the covered source), specialised to the
one selector the generic provider uses. -/
def qsOgImage (d : Document) : Except String MetaElement :=
  match d.headMetas.find? fun m => m.property == "og:image" with
  | some e => .ok e
  | none => .error "Could not find element matching selector head > meta[property=og:image]"

/-- `HeadMetaPropertyProvider.findImages`, given the HTTP
collaborator's response and the DOM collaborator `parseDOM`: fetch the
page through the redirect guard, query the head's `og:image` meta
element, and return one front-typed candidate with its content as URL. -/
def headMetaFindImages (p : Provider) (url : URL) (resp : XHRResponse)
    (parseDOM : String → Document) : Except String (List CoverArt) :=
  (fetchPage p url resp).bind fun content =>
    (qsOgImage (parseDOM content)).bind fun coverElmt =>
      .ok [{ url := coverElmt.content, types := some [ArtworkTypeIDs.Front] }]

/-- Lower-casing of a string, character by character. -/
def lowerStr (s : String) : String :=
  String.mk (s.data.map Char.toLower)

/-- Whether a domain pattern is a wildcard pattern `*.suffix`. -/
def isWildcardPattern (pattern : String) : Bool :=
  List.isPrefixOf "*.".data pattern.data

/-- The literal suffix of a wildcard pattern `*.suffix`. -/
def wildcardSuffix (pattern : String) : String :=
  String.mk (pattern.data.drop 2)

/-- Modelled from the spec: the Domain Matcher's
`matches(pattern, host)` (the registry implementation is outside the
covered source).  An exact pattern matches only the equal host,
case-insensitively; `*.suffix` matches `suffix` itself and any
subdomain of it. -/
def patternMatchesHost (pattern host : String) : Bool :=
  let p := lowerStr pattern
  let h := lowerStr host
  if isWildcardPattern p then
    let suffix := wildcardSuffix p
    h == suffix || List.isSuffixOf ("." ++ suffix).data h.data
  else
    h == p

/-- Modelled from the spec: pattern specificity — an exact pattern is
more specific than a wildcard pattern, and among wildcard patterns the
one with the longer literal suffix is more specific. -/
def moreSpecific (p q : String) : Bool :=
  if isWildcardPattern p then
    if isWildcardPattern q then
      (wildcardSuffix q).length < (wildcardSuffix p).length
    else false
  else
    isWildcardPattern q

/-- The most specific pattern of a provider's declared domain patterns
that matches the host, if any. -/
def bestMatchingPattern (domains : List String) (host : String) : Option String :=
  (domains.filter fun d => patternMatchesHost d host).foldl
    (fun best d =>
      match best with
      | none => some d
      | some b => if moreSpecific d b then some d else some b)
    none

/-- Modelled from the spec: provider resolution between two providers
matching the same host — the provider whose most specific matching
pattern is more specific wins; `none` when neither matches. -/
def resolveBetween (a b : Provider) (host : String) : Option Provider :=
  match bestMatchingPattern a.supportedDomains host,
        bestMatchingPattern b.supportedDomains host with
  | some pa, some pb => if moreSpecific pb pa then some b else some a
  | some _, none => some a
  | none, some _ => some b
  | none, none => none

/-- Whether `sub` occurs as a contiguous run inside the character list. -/
def charsContain (sub : List Char) : List Char → Bool
  | [] => sub.isEmpty
  | c :: rest => sub.isPrefixOf (c :: rest) || charsContain sub rest

/-- Whether the string `s` contains `sub` as a substring; used to state
that an error message names a value. -/
def strContains (s sub : String) : Bool :=
  charsContain sub.data s.data

/-- The regex patterns `p.urlRegex` denotes, as a list: the singleton
list for a single regex, the array itself for an array. -/
def patternsOf : Sum RegExp (List RegExp) → List RegExp
  | .inl regex => [regex]
  | .inr regexes => regexes

/-- The comment the specification prescribes for the track candidate
of URL `u`: the applicable track numbers of `u` in encounter order,
rendered "Track N" for one, "Tracks N, M, ..." for several, absent for
none.  Stated from the spec's words, to be compared with the source's
`createTrackImageComment`. -/
def trackCommentSpec (remaining : List ParsedTrackImage) (u : String) : Option String :=
  let nums := (remaining.filter fun img => img.url == u).filterMap fun img => img.trackNumber
  match nums with
  | [] => none
  | [n] => some ("Track " ++ n)
  | _ => some ("Tracks " ++ String.intercalate ", " nums)

/-! ### Concrete instances used by witnesses and counterexamples -/

/-- An example regex: matches the cleaned URLs `a.ex/1` and `a.ex/2`,
capturing the release identifiers "123" resp. "456". -/
def rxRelease : RegExp := fun s =>
  if s == "a.ex/1" then some [some "a.ex/1", some "123"]
  else if s == "a.ex/2" then some [some "a.ex/2", some "456"]
  else none

/-- A degenerate but legal regex (such as JS `/x(.*)$/` on "…x"): it
matches every string and captures the empty string. -/
def rxEmptyCapture : RegExp := fun s =>
  some [some s, some ""]

/-- An example provider with a single regex. -/
def exProvider : Provider :=
  { name := "Example"
    favicon := "https://a.ex/favicon.ico"
    supportedDomains := ["a.ex"]
    urlRegex := .inl rxRelease }

/-- The example provider configured with the one-element regex list. -/
def exProviderList : Provider :=
  { exProvider with urlRegex := .inr [rxRelease] }

/-- A provider whose regex captures the empty identifier. -/
def exProviderEmptyId : Provider :=
  { name := "EmptyId"
    favicon := "https://e.ex/favicon.ico"
    supportedDomains := ["e.ex"]
    urlRegex := .inl rxEmptyCapture }

/-- `https://a.ex/1`, a URL the example provider recognises. -/
def exUrl : URL :=
  { scheme := "https", host := "a.ex", pathname := "/1", search := "", hash := "" }

/-- `https://a.ex/2`, recognised with a different identifier. -/
def exUrl2 : URL :=
  { scheme := "https", host := "a.ex", pathname := "/2", search := "", hash := "" }

/-- `https://b.ex/9`, a URL the example provider does not recognise. -/
def exUrlOther : URL :=
  { scheme := "https", host := "b.ex", pathname := "/9", search := "", hash := "" }

/-- `https://Example.com/path?x=1#y`, the spec's `cleanUrl` example. -/
def exUrlFull : URL :=
  { scheme := "https", host := "Example.com", pathname := "/path", search := "?x=1", hash := "#y" }

/-- `https://Example.com/path`, the same without query and fragment. -/
def exUrlBare : URL :=
  { scheme := "https", host := "Example.com", pathname := "/path", search := "", hash := "" }

/-- A response that redirected to an unrelated URL. -/
def exRespRedirected : XHRResponse :=
  { finalUrl := exUrlOther, responseText := "<html></html>" }

/-- A response delivered without any redirect. -/
def exRespDirect : XHRResponse :=
  { finalUrl := exUrl, responseText := "page-body" }

/-- A provider registered for the exact domain `example.com`. -/
def exExactProvider : Provider :=
  { name := "Exact"
    favicon := ""
    supportedDomains := ["example.com"]
    urlRegex := .inl rxRelease }

/-- A provider registered for the wildcard domain `*.example.com`. -/
def exWildcardProvider : Provider :=
  { name := "Wildcard"
    favicon := ""
    supportedDomains := ["*.example.com"]
    urlRegex := .inl rxRelease }

/-- The spec's merger example:
`[{url:"a", trackNumber:"1"}, {url:"a", trackNumber:"2"}, {url:"b"}]`. -/
def exTrackImages : List (Option ParsedTrackImage) :=
  [some { url := "a", trackNumber := some "1" },
   some { url := "a", trackNumber := some "2" },
   some { url := "b", trackNumber := none }]

/-- The spec's dropping example: `[{url:"z", trackNumber:"1"}]`. -/
def exTrackImagesMain : List (Option ParsedTrackImage) :=
  [some { url := "z", trackNumber := some "1" }]

/-- The candidate the merger produces for URL "a" in the spec's
example. -/
def exCandidateA : CoverArt :=
  { url := "a", types := some [ArtworkTypeIDs.Track], comment := some "Tracks 1, 2" }

/-- A document whose head carries the spec's `og:image` element. -/
def exDocument : Document :=
  { headMetas := [{ property := "og:image", content := "https://cdn.example/cover.jpg" }] }

/-- A DOM collaborator that parses every page to `exDocument`. -/
def exParse : String → Document := fun _ => exDocument

/-- A DOM collaborator that parses every page to an empty head. -/
def exParseEmpty : String → Document := fun _ => { headMetas := [] }

/-! ### Helper lemmas -/

theorem matchGroup1_isSome_test (r : RegExp) (s : String) (id : String)
    (h : r.matchGroup1 s = some id) : r.test s = true := by
  unfold RegExp.matchGroup1 at h
  unfold RegExp.test
  cases hrs : r s with
  | none => rw [hrs] at h; simp [Option.join] at h
  | some groups => simp [hrs]

theorem find_isSome_join_eq_findSome (f : RegExp → Option String) (rs : List RegExp) :
    ((rs.map f).find? fun id => id.isSome).join = rs.findSome? f := by
  induction rs with
  | nil => rfl
  | cons r rest ih =>
    rw [List.map_cons, List.findSome?_cons]
    cases h : f r with
    | none => rw [List.find?_cons_of_neg _ (by simp), ih]
    | some b =>
      rw [List.find?_cons_of_pos _ rfl]
      rfl

theorem extractId_eq_findSome (p : Provider) (url : URL) :
    extractId p url = (patternsOf p.urlRegex).findSome? fun r => r.matchGroup1 (cleanUrl url) := by
  unfold extractId patternsOf
  cases p.urlRegex with
  | inl r =>
    cases h : r.matchGroup1 (cleanUrl url) <;> simp [List.findSome?_cons, h]
  | inr rs => exact find_isSome_join_eq_findSome _ rs

theorem supportsUrl_iff_exists (p : Provider) (url : URL) :
    supportsUrl p url = true ↔
      ∃ r, r ∈ patternsOf p.urlRegex ∧ r.test (cleanUrl url) = true := by
  unfold supportsUrl patternsOf
  cases p.urlRegex with
  | inl r => simp
  | inr rs => simp [List.any_eq_true]

theorem isSafeRedirect_iff (p : Provider) (o r : URL) :
    isSafeRedirect p o r = true ↔
      ∃ id, id ≠ "" ∧ extractId p o = some id ∧ extractId p r = some id := by
  unfold isSafeRedirect
  cases h : extractId p o with
  | none => simp [h]
  | some id =>
    simp only [h, Bool.and_eq_true, Bool.not_eq_true', beq_eq_false_iff_ne, beq_iff_eq]
    constructor
    · rintro ⟨hne, hr⟩
      exact ⟨id, hne, rfl, hr⟩
    · rintro ⟨id', hne, hid, hr⟩
      cases hid
      exact ⟨hne, hr⟩

theorem isPrefixOf_self_append (b y : List Char) : List.isPrefixOf b (b ++ y) = true := by
  induction b with
  | nil => simp [List.isPrefixOf]
  | cons c cs ih => simp [List.isPrefixOf, ih]

theorem charsContain_nil_sub (l : List Char) : charsContain [] l = true := by
  cases l <;> simp [charsContain, List.isPrefixOf]

theorem charsContain_append_self (b y : List Char) : charsContain b (b ++ y) = true := by
  cases b with
  | nil => exact charsContain_nil_sub y
  | cons c cs =>
    show charsContain (c :: cs) (c :: (cs ++ y)) = true
    have := isPrefixOf_self_append (c :: cs) y
    simp only [List.cons_append] at this
    simp [charsContain, this]

theorem charsContain_cons_of (sub : List Char) (c : Char) (l : List Char)
    (h : charsContain sub l = true) : charsContain sub (c :: l) = true := by
  simp [charsContain, h]

theorem charsContain_append_left (x sub y : List Char) :
    charsContain sub (x ++ (sub ++ y)) = true := by
  induction x with
  | nil => exact charsContain_append_self sub y
  | cons c cs ih => exact charsContain_cons_of _ c _ ih

theorem strContains_of_append (x sub y s : String) (h : s = x ++ (sub ++ y)) :
    strContains s sub = true := by
  subst h
  unfold strContains
  rw [String.data_append, String.data_append]
  exact charsContain_append_left x.data sub.data y.data

/-! ### Claims -/

/-- C7: `cleanUrl` returns host concatenated with path; URLs that agree
on host and path (so differ only in scheme, query or fragment) clean to
the same string, and `cleanUrl` is a pure function of those fields. -/
theorem C7_cleanUrl_strips (u v : URL) :
    cleanUrl u = u.host ++ u.pathname ∧
    (u.host = v.host → u.pathname = v.pathname → cleanUrl u = cleanUrl v) := by
  refine ⟨rfl, fun hh hp => ?_⟩
  unfold cleanUrl
  rw [hh, hp]

/-- C7 witness: the spec's example, with and without query and
fragment. -/
theorem C7_cleanUrl_strips_witness : cleanUrl exUrlFull = cleanUrl exUrlBare :=
  (C7_cleanUrl_strips exUrlFull exUrlBare).2 rfl rfl

/-- C2 counterexample: a regex may legitimately capture the empty
string; then both URLs yield the present, equal identifier `""`, yet
`isSafeRedirect` is false (JS `!!id` rejects the empty string), so the
claimed equivalence and the claimed identity-redirect safety both fail
at this input. -/
theorem C2_isSafeRedirect_counterexample :
    extractId exProviderEmptyId exUrl = some "" ∧
    isSafeRedirect exProviderEmptyId exUrl exUrl = false := by
  exact ⟨rfl, rfl⟩

/-- C2 (amended): `isSafeRedirect originalUrl redirectedUrl` is true
iff both URLs yield a present, equal and non-empty identifier via
`extractId`; in particular a URL with a present non-empty identifier is
safe as an identity redirect. -/
theorem C2_isSafeRedirect_nonEmpty_iff (p : Provider) (o r : URL) :
    (isSafeRedirect p o r = true ↔
      ∃ id, id ≠ "" ∧ extractId p o = some id ∧ extractId p r = some id) ∧
    (∀ id, extractId p o = some id → id ≠ "" → isSafeRedirect p o o = true) := by
  refine ⟨isSafeRedirect_iff p o r, fun id hid hne => ?_⟩
  exact (isSafeRedirect_iff p o o).2 ⟨id, hne, hid, hid⟩

/-- C2 witness: the example provider extracts "123" from
`https://a.ex/1`, and the identity redirect on it is safe. -/
theorem C2_isSafeRedirect_nonEmpty_iff_witness :
    isSafeRedirect exProvider exUrl exUrl = true :=
  (C2_isSafeRedirect_nonEmpty_iff exProvider exUrl exUrl).2 "123" rfl (by decide)

/-- C6: `extractId` applies the patterns in declaration order to the
cleaned URL and returns the capturing-group match of the first pattern
yielding one; when no pattern matches the cleaned URL it returns
absent. -/
theorem C6_extractId_declaration_order (p : Provider) (url : URL) :
    extractId p url =
      ((patternsOf p.urlRegex).findSome? fun r => r.matchGroup1 (cleanUrl url)) ∧
    ((∀ r, r ∈ patternsOf p.urlRegex → r.test (cleanUrl url) = false) →
      extractId p url = none) := by
  refine ⟨extractId_eq_findSome p url, fun hnone => ?_⟩
  rw [extractId_eq_findSome p url]
  rw [List.findSome?_eq_none_iff]
  intro r hr
  cases h : r.matchGroup1 (cleanUrl url) with
  | none => rfl
  | some id =>
    have := matchGroup1_isSome_test r (cleanUrl url) id h
    rw [hnone r hr] at this
    cases this

/-- C6 witness: no pattern of the example provider matches
`https://b.ex/9`, so extraction is absent there. -/
theorem C6_extractId_declaration_order_witness :
    extractId exProvider exUrlOther = none := by
  refine (C6_extractId_declaration_order exProvider exUrlOther).2 ?_
  intro r hr
  rw [List.mem_singleton.1 hr]
  decide

/-- C9: `supportsUrl` is true iff some identifier-extraction pattern
tests true on the cleaned URL, and a single pattern `r` behaves, for
both `supportsUrl` and `extractId`, exactly like the one-element list
`[r]`. -/
theorem C9_supportsUrl_uniform (p : Provider) (url : URL) (r : RegExp) :
    (supportsUrl p url = true ↔
      ∃ rx, rx ∈ patternsOf p.urlRegex ∧ rx.test (cleanUrl url) = true) ∧
    supportsUrl { p with urlRegex := .inl r } url =
      supportsUrl { p with urlRegex := .inr [r] } url ∧
    extractId { p with urlRegex := .inl r } url =
      extractId { p with urlRegex := .inr [r] } url := by
  refine ⟨supportsUrl_iff_exists p url, ?_, ?_⟩
  · simp [supportsUrl]
  · show r.matchGroup1 (cleanUrl url) =
      (([r].map fun rx => rx.matchGroup1 (cleanUrl url)).find? fun id => id.isSome).join
    rw [find_isSome_join_eq_findSome]
    cases h : r.matchGroup1 (cleanUrl url) <;> simp [List.findSome?_cons, h]

/-- C10: a URL from which an identifier can be extracted is a supported
URL. -/
theorem C10_extractId_supportsUrl (p : Provider) (url : URL) (id : String)
    (h : extractId p url = some id) : supportsUrl p url = true := by
  rw [extractId_eq_findSome p url] at h
  obtain ⟨r, hmem, hr⟩ := List.exists_of_findSome?_eq_some h
  exact (supportsUrl_iff_exists p url).2
    ⟨r, hmem, matchGroup1_isSome_test r (cleanUrl url) id hr⟩

/-- C10 witness: the example provider extracts "123" from
`https://a.ex/1` and indeed supports that URL. -/
theorem C10_extractId_supportsUrl_witness :
    supportsUrl exProvider exUrl = true :=
  C10_extractId_supportsUrl exProvider exUrl "123" (by decide)

/-- C1 counterexample: at this unsafe redirect the fetch fails as
claimed, and the message names the provider and the final URL, but the
original URL `https://a.ex/1` does not occur in the message — the claim
that the message names the original URL is false at this input. -/
theorem C1_fetchPage_counterexample :
    exRespRedirected.finalUrl.href ≠ exUrl.href ∧
    isSafeRedirect exProvider exUrl exRespRedirected.finalUrl = false ∧
    fetchPage exProvider exUrl exRespRedirected =
      .error (redirectErrorMessage exProvider exUrlOther) ∧
    strContains (redirectErrorMessage exProvider exUrlOther) exUrl.href = false := by
  refine ⟨by decide, by decide, rfl, by decide⟩

/-- C1 (amended): when the reported final URL differs from the
requested one and the redirect is unsafe, `fetchPage` fails with the
redirect message, which names the provider and the final URL (the
original URL is only referred to, not spelled out); when the final URL
equals the requested one or the redirect is safe, it returns the
response body unmodified. -/
theorem C1_fetchPage_redirect_guard (p : Provider) (url : URL) (resp : XHRResponse) :
    (resp.finalUrl.href ≠ url.href → isSafeRedirect p url resp.finalUrl = false →
      fetchPage p url resp = .error (redirectErrorMessage p resp.finalUrl) ∧
      strContains (redirectErrorMessage p resp.finalUrl) p.name = true ∧
      strContains (redirectErrorMessage p resp.finalUrl) resp.finalUrl.href = true) ∧
    ((resp.finalUrl.href = url.href ∨ isSafeRedirect p url resp.finalUrl = true) →
      fetchPage p url resp = .ok resp.responseText) := by
  constructor
  · intro hne hunsafe
    refine ⟨?_, ?_, ?_⟩
    · unfold fetchPage
      rw [if_pos]
      rw [Bool.and_eq_true, bne_iff_ne, hunsafe]
      exact ⟨hne, rfl⟩
    · exact strContains_of_append "Refusing to extract images from " p.name
        (" provider because the original URL redirected to " ++ resp.finalUrl.href ++
          ", which may be a different release. If this redirected URL is correct, please retry with " ++
          resp.finalUrl.href ++ " directly.") _
        (by simp [redirectErrorMessage, String.append_assoc])
    · exact strContains_of_append
        ("Refusing to extract images from " ++ p.name ++
          " provider because the original URL redirected to ") resp.finalUrl.href
        (", which may be a different release. If this redirected URL is correct, please retry with " ++
          resp.finalUrl.href ++ " directly.") _
        (by simp [redirectErrorMessage, String.append_assoc])
  · intro hsafe
    unfold fetchPage
    rw [if_neg]
    rw [Bool.and_eq_true, bne_iff_ne]
    rintro ⟨hne, hnot⟩
    cases hsafe with
    | inl h => exact hne h
    | inr h => rw [h] at hnot; cases hnot

/-- C1 witness: the unsafe redirect fails with the message naming the
provider, and the direct response is returned unmodified. -/
theorem C1_fetchPage_redirect_guard_witness :
    fetchPage exProvider exUrl exRespRedirected =
      .error (redirectErrorMessage exProvider exRespRedirected.finalUrl) ∧
    strContains (redirectErrorMessage exProvider exRespRedirected.finalUrl)
      exProvider.name = true ∧
    fetchPage exProvider exUrl exRespDirect = .ok "page-body" := by
  have h1 := (C1_fetchPage_redirect_guard exProvider exUrl exRespRedirected).1
    (by decide) (by decide)
  have h2 := (C1_fetchPage_redirect_guard exProvider exUrl exRespDirect).2 (Or.inl rfl)
  exact ⟨h1.1, h1.2.1, h2⟩

/-- C3: among two providers matching a host, the one whose most
specific matching pattern is an exact host match beats the one whose
best match is a wildcard, and among wildcard best matches the longer
literal suffix wins; resolution returns that single winner. -/
theorem C3_resolution_precedence (host : String) (a b : Provider) (pa pb : String)
    (ha : bestMatchingPattern a.supportedDomains host = some pa)
    (hb : bestMatchingPattern b.supportedDomains host = some pb) :
    (isWildcardPattern pa = false → isWildcardPattern pb = true →
      resolveBetween a b host = some a) ∧
    (isWildcardPattern pa = true → isWildcardPattern pb = true →
      (wildcardSuffix pb).length < (wildcardSuffix pa).length →
      resolveBetween a b host = some a) := by
  constructor
  · intro hpa hpb
    unfold resolveBetween
    rw [ha, hb]
    have : moreSpecific pb pa = false := by
      unfold moreSpecific
      rw [hpb, hpa]
      simp
    show (if moreSpecific pb pa = true then some b else some a) = some a
    rw [this]
    simp
  · intro hpa hpb hlen
    unfold resolveBetween
    rw [ha, hb]
    have : moreSpecific pb pa = false := by
      unfold moreSpecific
      rw [hpb, hpa]
      simp only [if_true]
      exact decide_eq_false (Nat.not_lt.2 (Nat.le_of_lt hlen))
    show (if moreSpecific pb pa = true then some b else some a) = some a
    rw [this]
    simp

/-- C3 witness: the spec's example — for host `example.com`, the
provider registered for the exact pattern `example.com` beats the one
registered for `*.example.com`. -/
theorem C3_resolution_precedence_witness :
    resolveBetween exExactProvider exWildcardProvider "example.com" = some exExactProvider :=
  (C3_resolution_precedence "example.com" exExactProvider exWildcardProvider
    "example.com" "*.example.com" (by decide) (by decide)).1 (by decide) (by decide)

theorem mem_dedupFirst {κ : Type} [BEq κ] [LawfulBEq κ] (a : κ) (l : List κ) :
    a ∈ dedupFirst l ↔ a ∈ l := by
  induction l with
  | nil => simp [dedupFirst]
  | cons k rest ih =>
    by_cases hak : a = k
    · subst hak; simp [dedupFirst]
    · simp [dedupFirst, List.mem_filter, ih, hak]

theorem nodup_dedupFirst {κ : Type} [BEq κ] [LawfulBEq κ] (l : List κ) :
    (dedupFirst l).Nodup := by
  induction l with
  | nil => simp [dedupFirst]
  | cons k rest ih =>
    refine List.Nodup.cons ?_ (List.Nodup.filter _ ih)
    intro hmem
    have := (List.mem_filter.1 hmem).2
    simp at this

theorem intercalate_singleton (s n : String) : String.intercalate s [n] = n := by
  simp [String.intercalate, String.intercalate.go]

theorem mem_filterNonNull {α : Type} (a : α) (l : List (Option α)) :
    a ∈ filterNonNull l ↔ some a ∈ l := by
  simp [filterNonNull, List.mem_filterMap]

theorem except_bind_ok {ε α β : Type} (a : α) (f : α → Except ε β) :
    (Except.ok a : Except ε α).bind f = f a :=
  rfl

theorem createTrackImageComment_cases (tns : List (Option String)) :
    createTrackImageComment tns =
      match filterNonNull tns with
      | [] => none
      | [n] => some ("Track " ++ n)
      | n :: n2 :: rest => some ("Tracks " ++ String.intercalate ", " (n :: n2 :: rest)) := by
  have htrack : ("Track" : String) ++ " " = "Track " := by decide
  have htracks : ("Tracks" : String) ++ " " = "Tracks " := by decide
  unfold createTrackImageComment
  cases h : filterNonNull tns with
  | nil => simp [h]
  | cons n rest =>
    cases rest with
    | nil => simp [h, intercalate_singleton, htrack, String.append_assoc]
    | cons n2 rest2 => simp [h, htracks, String.append_assoc]

theorem createTrackImageComment_eq_spec (remaining : List ParsedTrackImage) (u : String) :
    createTrackImageComment
      ((remaining.filter fun img => img.url == u).map fun img => img.trackNumber) =
    trackCommentSpec remaining u := by
  rw [createTrackImageComment_cases]
  unfold trackCommentSpec filterNonNull
  rw [List.filterMap_map]
  simp only [Function.id_comp]
  cases hnums : (remaining.filter fun img => img.url == u).filterMap fun img => img.trackNumber with
  | nil => rfl
  | cons n rest =>
    cases rest with
    | nil => rfl
    | cons n2 rest2 => rfl

/-- C4: for each distinct remaining URL the merger produces exactly one
candidate — the produced URLs are the distinct remaining URLs in first-
encounter order, without duplicates — and each candidate is tagged with
the track artwork type and carries the comment the spec prescribes for
its URL ("Track N" for one known number, "Tracks N, M, ..." in
encounter order for several, absent for none). -/
theorem C4_mergeTrackImages_per_url (t : List (Option ParsedTrackImage)) (m : String) :
    ((mergeTrackImages t m).map fun c => c.url) =
      dedupFirst ((remainingTrackImages t m).map fun img => img.url) ∧
    ((mergeTrackImages t m).map fun c => c.url).Nodup ∧
    (∀ c, c ∈ mergeTrackImages t m →
      c.types = some [ArtworkTypeIDs.Track] ∧
      c.comment = trackCommentSpec (remainingTrackImages t m) c.url) := by
  have hurls : ((mergeTrackImages t m).map fun c => c.url) =
      dedupFirst ((remainingTrackImages t m).map fun img => img.url) := by
    unfold mergeTrackImages groupBy
    rw [List.map_map, List.map_map]
    exact List.map_id _
  refine ⟨hurls, hurls ▸ nodup_dedupFirst _, fun c hc => ?_⟩
  unfold mergeTrackImages groupBy at hc
  rw [List.map_map] at hc
  obtain ⟨k, _, hck⟩ := List.mem_map.1 hc
  subst hck
  exact ⟨rfl, createTrackImageComment_eq_spec _ k⟩

/-- C4 witness: in the spec's example the candidate for URL "a" is
track-typed and commented "Tracks 1, 2". -/
theorem C4_mergeTrackImages_per_url_witness :
    exCandidateA.types = some [ArtworkTypeIDs.Track] ∧
    exCandidateA.comment = trackCommentSpec (remainingTrackImages exTrackImages "z") exCandidateA.url :=
  (C4_mergeTrackImages_per_url exTrackImages "z").2.2 exCandidateA (by decide)

/-- C5: every candidate the merger produces stems from a present entry
whose URL differs from the main image URL, and an input consisting only
of absent entries and entries carrying the main image URL merges to the
empty list. -/
theorem C5_mergeTrackImages_drops (t : List (Option ParsedTrackImage)) (m : String) :
    (∀ c, c ∈ mergeTrackImages t m →
      c.url ≠ m ∧ ∃ img, some img ∈ t ∧ img.url = c.url) ∧
    ((∀ x, x ∈ t → x = none ∨ ∃ img, x = some img ∧ img.url = m) →
      mergeTrackImages t m = []) := by
  constructor
  · intro c hc
    unfold mergeTrackImages groupBy at hc
    rw [List.map_map] at hc
    obtain ⟨k, hk, hck⟩ := List.mem_map.1 hc
    subst hck
    rw [mem_dedupFirst] at hk
    obtain ⟨img, himg, hurl⟩ := List.mem_map.1 hk
    obtain ⟨hmem, hne⟩ := List.mem_filter.1 himg
    refine ⟨hurl ▸ bne_iff_ne.1 hne, img, ?_, hurl⟩
    exact (mem_filterNonNull img t).1 hmem
  · intro hall
    have hrem : remainingTrackImages t m = [] := by
      unfold remainingTrackImages
      rw [List.filter_eq_nil_iff]
      intro img hmem
      rcases hall _ ((mem_filterNonNull img t).1 hmem) with hnone | ⟨img', heq, hurl⟩
      · exact Option.noConfusion hnone
      · cases Option.some.inj heq
        simp [hurl]
    unfold mergeTrackImages
    rw [hrem]
    rfl

/-- C5 witness: the spec's dropping example — the single entry carries
the main image URL, so the merge is empty. -/
theorem C5_mergeTrackImages_drops_witness :
    mergeTrackImages exTrackImagesMain "z" = [] :=
  (C5_mergeTrackImages_drops exTrackImagesMain "z").2 (by
    intro x hx
    rw [List.mem_singleton.1 hx]
    exact Or.inr ⟨_, rfl, rfl⟩)

/-- C8: when the fetch suffered no redirect, the generic meta-tag
provider returns exactly one front-typed, uncommented candidate whose
URL is the content of the head's first `og:image` meta element, and
fails when that element is absent. -/
theorem C8_headMeta_og_image (p : Provider) (url : URL) (resp : XHRResponse)
    (parse : String → Document) (e : MetaElement)
    (hdir : resp.finalUrl.href = url.href) :
    ((parse resp.responseText).headMetas.find? (fun mt => mt.property == "og:image") = some e →
      headMetaFindImages p url resp parse =
        .ok [{ url := e.content, types := some [ArtworkTypeIDs.Front],
               comment := none, skipMaximisation := none }]) ∧
    ((parse resp.responseText).headMetas.find? (fun mt => mt.property == "og:image") = none →
      headMetaFindImages p url resp parse =
        .error "Could not find element matching selector head > meta[property=og:image]") := by
  have hfetch : fetchPage p url resp = .ok resp.responseText := by
    unfold fetchPage
    rw [if_neg]
    rw [Bool.and_eq_true, bne_iff_ne]
    rintro ⟨hne, _⟩
    exact hne hdir
  constructor
  · intro hfind
    have hqs : qsOgImage (parse resp.responseText) = .ok e := by
      unfold qsOgImage
      rw [hfind]
    unfold headMetaFindImages
    rw [hfetch, except_bind_ok, hqs, except_bind_ok]
  · intro hfind
    have hqs : qsOgImage (parse resp.responseText) =
        .error "Could not find element matching selector head > meta[property=og:image]" := by
      unfold qsOgImage
      rw [hfind]
    unfold headMetaFindImages
    rw [hfetch, except_bind_ok, hqs]
    rfl

/-- C8 witness: the spec's example document yields exactly the
front-typed candidate for `https://cdn.example/cover.jpg`, and the
empty head fails. -/
theorem C8_headMeta_og_image_witness :
    headMetaFindImages exProvider exUrl exRespDirect exParse =
      .ok [{ url := "https://cdn.example/cover.jpg", types := some [ArtworkTypeIDs.Front],
             comment := none, skipMaximisation := none }] ∧
    headMetaFindImages exProvider exUrl exRespDirect exParseEmpty =
      .error "Could not find element matching selector head > meta[property=og:image]" :=
  ⟨(C8_headMeta_og_image exProvider exUrl exRespDirect exParse
      { property := "og:image", content := "https://cdn.example/cover.jpg" } rfl).1 (by decide),
   (C8_headMeta_og_image exProvider exUrl exRespDirect exParseEmpty
      { property := "og:image", content := "" } rfl).2 (by decide)⟩

end MBProviders
